import Mathlib

/-!
Verification of the vector-store / semantic-cache layer of `langchain-azure`
(`langchain_azure_ai.vectorstores`): a shallow embedding of
`azure_cosmos_db_mongo_vcore.py`, `cache.py` and `azuresearch.py`, together
with theorems settling the behavioural claims about query-pipeline
construction, result normalisation, ingestion batching, MMR re-ordering and
the semantic-cache lookup/clear protocol.

Modelling conventions:
* Python dictionaries are ordered association lists (`PyDict`) over a
  JSON-like value type `JVal`; insertion overwrites in place, new keys are
  appended (CPython `dict` semantics).
* Python floats are modelled as rationals (`Rat`); the `numpy` float32
  rounding applied to embedding vectors is an opaque function parameter,
  applied identically wherever the source applies it.
* Fallible Python code is modelled in `Except PyErr`; each raised exception
  is labelled with the Python exception class it comes from.
* External collaborators (backend clients, `json.loads`/`json.dumps`,
  the langchain structured codec `loads`/`dumps`, `sha256`, `uuid4`,
  the embedding model, and `maximal_marginal_relevance` from the
  `vectorstores.utils` module) are opaque function parameters.
-/

/-- Python exception classes that the modelled code can raise.
`langchainException` carries the per-document upload response report
(`True` = that document succeeded), as `LangChainException(response)` does. -/
inductive PyErr where
  | keyError : PyErr
  | typeError : PyErr
  | valueError : PyErr
  | indexError : PyErr
  | attributeError : PyErr
  | langchainException (response : List Bool) : PyErr
  deriving Repr, DecidableEq

/-- JSON-like values: the payloads stored in Python dicts by the modelled
code (strings, numbers, booleans, null, arrays, objects). Python floats and
ints are both modelled as `Rat` numbers. -/
inductive JVal where
  | str (s : String) : JVal
  | num (q : Rat) : JVal
  | bool (b : Bool) : JVal
  | null : JVal
  | arr (items : List JVal) : JVal
  | obj (fields : List (String × JVal)) : JVal

/-- A Python dict with string keys: an ordered association list. -/
abbrev PyDict := List (String × JVal)

/-- `d[k]` as an option: first binding of `k` in `d`. -/
def dictGet? (d : PyDict) (k : String) : Option JVal :=
  match d with
  | [] => none
  | (k', v) :: rest => if k' = k then some v else dictGet? rest k

/-- `d[k] = v`: overwrite the existing binding in place, else append. -/
def dictSet (d : PyDict) (k : String) (v : JVal) : PyDict :=
  match d with
  | [] => [(k, v)]
  | (k', v') :: rest =>
      if k' = k then (k', v) :: rest else (k', v') :: dictSet rest k v

/-- `d.update(e)`: fold `dictSet` over the entries of `e`. -/
def dictUpdate (d e : PyDict) : PyDict :=
  e.foldl (fun acc kv => dictSet acc kv.1 kv.2) d

/-- `d.pop(k)` paired with the shrunken dict (`none` when `k` is absent). -/
def dictPop (d : PyDict) (k : String) : Option JVal × PyDict :=
  match d with
  | [] => (none, [])
  | (k', v) :: rest =>
      if k' = k then (some v, rest)
      else ((dictPop rest k).1, (k', v) :: (dictPop rest k).2)

/-- Python `list[i]` with negative-index wrap-around; raises `IndexError`
out of range. -/
def pyIndex {α : Type} (l : List α) (i : Int) : Except PyErr α :=
  let j : Int := if i < 0 then i + l.length else i
  if h : 0 ≤ j ∧ j.toNat < l.length then .ok (l.get ⟨j.toNat, h.2⟩)
  else .error .indexError

theorem dictGet?_dictSet_self (d : PyDict) (k : String) (v : JVal) :
    dictGet? (dictSet d k v) k = some v := by
  induction d with
  | nil => simp [dictSet, dictGet?]
  | cons hd tl ih =>
      obtain ⟨k', v'⟩ := hd
      by_cases h : k' = k <;> simp [dictSet, dictGet?, h, ih]

theorem dictGet?_dictSet_ne (d : PyDict) (k k' : String) (v : JVal)
    (h : k' ≠ k) : dictGet? (dictSet d k v) k' = dictGet? d k' := by
  have h' : k ≠ k' := Ne.symm h
  induction d with
  | nil => simp [dictSet, dictGet?, h']
  | cons hd tl ih =>
      obtain ⟨k0, v0⟩ := hd
      by_cases h0 : k0 = k
      · subst h0
        simp [dictSet, dictGet?, h']
      · by_cases h1 : k0 = k' <;> simp [dictSet, dictGet?, h0, h1, h, ih]

/-! ## Cosmos DB Mongo vCore vector store (`azure_cosmos_db_mongo_vcore.py`) -/

/-- `CosmosDBVectorSearchType`: the three vector-index kinds. -/
inductive CosmosDBVectorSearchType where
  | vector_ivf : CosmosDBVectorSearchType
  | vector_hnsw : CosmosDBVectorSearchType
  | vector_diskann : CosmosDBVectorSearchType
  deriving Repr, DecidableEq

/-- The value an `Optional[float]` argument contributes to a request dict:
`None` becomes JSON null, a float is stored as a number. -/
def joptNum (o : Option Rat) : JVal :=
  match o with
  | none => .null
  | some q => .num q

/-- The snippet `if pre_filter: params["filter"] = pre_filter` shared by the
three pipeline builders (an empty pre-filter dict is falsy, so it adds no
`filter` entry). -/
def apply_pre_filter (params : PyDict) (pre_filter : Option PyDict) : PyDict :=
  match pre_filter with
  | some f => if f.isEmpty then params else dictSet params "filter" (.obj f)
  | none => params

/-- `AzureCosmosDBMongoVCoreVectorSearch._get_pipeline_vector_ivf`: stage 1
is a `$search` on `cosmosSearch` params (vector, path, k, oversampling, and
`filter` when the pre-filter is truthy) with `returnStoredSource`; stage 2
projects the similarity score and the whole document. -/
def get_pipeline_vector_ivf (embedding_key : String) (embeddings : List Rat)
    (k : Nat) (pre_filter : Option PyDict) (oversampling : Option Rat) :
    List PyDict :=
  let params : PyDict :=
    [("vector", .arr (embeddings.map .num)),
     ("path", .str embedding_key),
     ("k", .num k),
     ("oversampling", joptNum oversampling)]
  let params := apply_pre_filter params pre_filter
  [[("$search", .obj
      [("cosmosSearch", .obj params), ("returnStoredSource", .bool true)])],
   [("$project", .obj
      [("similarityScore", .obj [("$meta", .str "searchScore")]),
       ("document", .str "$$ROOT")])]]

/-- `AzureCosmosDBMongoVCoreVectorSearch._get_pipeline_vector_hnsw`: like the
IVF pipeline but with an `efSearch` parameter and no `returnStoredSource`. -/
def get_pipeline_vector_hnsw (embedding_key : String) (embeddings : List Rat)
    (k : Nat) (ef_search : Nat) (pre_filter : Option PyDict)
    (oversampling : Option Rat) : List PyDict :=
  let params : PyDict :=
    [("vector", .arr (embeddings.map .num)),
     ("path", .str embedding_key),
     ("k", .num k),
     ("efSearch", .num ef_search),
     ("oversampling", joptNum oversampling)]
  let params := apply_pre_filter params pre_filter
  [[("$search", .obj [("cosmosSearch", .obj params)])],
   [("$project", .obj
      [("similarityScore", .obj [("$meta", .str "searchScore")]),
       ("document", .str "$$ROOT")])]]

/-- `AzureCosmosDBMongoVCoreVectorSearch._get_pipeline_vector_diskann`: like
the HNSW pipeline but the kind-specific parameter is `lSearch`. -/
def get_pipeline_vector_diskann (embedding_key : String)
    (embeddings : List Rat) (k : Nat) (l_search : Nat)
    (pre_filter : Option PyDict) (oversampling : Option Rat) : List PyDict :=
  let params : PyDict :=
    [("vector", .arr (embeddings.map .num)),
     ("path", .str embedding_key),
     ("k", .num k),
     ("lSearch", .num l_search),
     ("oversampling", joptNum oversampling)]
  let params := apply_pre_filter params pre_filter
  [[("$search", .obj [("cosmosSearch", .obj params)])],
   [("$project", .obj
      [("similarityScore", .obj [("$meta", .str "searchScore")]),
       ("document", .str "$$ROOT")])]]

/-- Signature default of the `l_search` parameter (`l_search: int = 40`) in
`_get_pipeline_vector_diskann`, `_similarity_search_with_score`,
`similarity_search_with_score` and `similarity_search`. -/
def l_search_default : Nat := 40

/-- Python call semantics for `_get_pipeline_vector_diskann`: an omitted
`l_search` argument takes the signature default `40`. -/
def get_pipeline_vector_diskann_call (embedding_key : String)
    (embeddings : List Rat) (k : Nat) (l_search_arg : Option Nat)
    (pre_filter : Option PyDict) (oversampling : Option Rat) : List PyDict :=
  get_pipeline_vector_diskann embedding_key embeddings k
    (l_search_arg.getD l_search_default) pre_filter oversampling

/-- Pipeline dispatch of `_similarity_search_with_score` (the `if`/`elif`
chain over the exhaustive index-kind enum). The call sites pass the
builders' `oversampling` default (`1.0`); `_similarity_search_with_score`
does not forward its own `oversampling` argument to the builders. -/
def similarity_pipeline (embedding_key : String) (embeddings : List Rat)
    (k : Nat) (kind : CosmosDBVectorSearchType) (pre_filter : Option PyDict)
    (ef_search : Nat) (l_search : Nat) : List PyDict :=
  match kind with
  | .vector_ivf =>
      get_pipeline_vector_ivf embedding_key embeddings k pre_filter (some 1)
  | .vector_hnsw =>
      get_pipeline_vector_hnsw embedding_key embeddings k ef_search
        pre_filter (some 1)
  | .vector_diskann =>
      get_pipeline_vector_diskann embedding_key embeddings k l_search
        pre_filter (some 1)

/-- Extracts the `cosmosSearch` parameter dict from stage 1 of a pipeline. -/
def searchStageParams (pipeline : List PyDict) : Option PyDict :=
  match pipeline.head? with
  | some stage =>
      match dictGet? stage "$search" with
      | some (.obj search) =>
          match dictGet? search "cosmosSearch" with
          | some (.obj params) => some params
          | _ => none
      | _ => none
  | none => none

/-- The `filter` entry the builders put in the `cosmosSearch` params: present
exactly when the pre-filter is truthy (non-`None` and non-empty). -/
def filterEntry (pre_filter : Option PyDict) : Option JVal :=
  match pre_filter with
  | some f => if f.isEmpty then none else some (.obj f)
  | none => none

/-- A langchain `Document`: page content plus a metadata dict. -/
structure LCDocument where
  page_content : JVal
  metadata : PyDict

/-- Per-row document extraction of `_similarity_search_with_score` (the body
of the cursor loop after the score filter): pop the matched `document`, its
text key, its `metadata` dict (defaulting to empty), fold the popped `_id`
into the metadata, and optionally fold in the embedding. A missing
`document`, text or `_id` key raises `KeyError`; a non-dict `document`
raises on `.pop` (`AttributeError`); a non-dict `metadata` raises on item
assignment (`TypeError`). -/
def search_row_document (text_key embedding_key : String)
    (with_embedding : Bool) (res : PyDict) : Except PyErr LCDocument :=
  match dictPop res "document" with
  | (none, _) => .error .keyError
  | (some dv, _) =>
    match dv with
    | .obj document =>
      match dictPop document text_key with
      | (none, _) => .error .keyError
      | (some text, document) =>
        let (mv, document) := dictPop document "metadata"
        match (match mv with
               | none => Except.ok ([] : PyDict)
               | some (.obj m) => Except.ok m
               | some _ => Except.error PyErr.typeError) with
        | .error e => .error e
        | .ok metadata =>
          match dictPop document "_id" with
          | (none, _) => .error .keyError
          | (some idv, document) =>
            let metadata := dictSet metadata "_id" idv
            match (if with_embedding then
                     match dictPop document embedding_key with
                     | (none, _) => Except.error PyErr.keyError
                     | (some ev, _) =>
                         Except.ok (dictSet metadata embedding_key ev)
                   else Except.ok metadata) with
            | .error e => .error e
            | .ok metadata => .ok (LCDocument.mk text metadata)
    | _ => .error .attributeError

/-- Result-row processing loop of `_similarity_search_with_score`: pop the
`similarityScore` of each row (a missing score raises `KeyError`, a
non-numeric one fails the `<` comparison with `TypeError`), drop rows
scoring below `score_threshold` (`continue`), convert the rest with
`search_row_document`, and emit `(Document, score)` pairs in row order. -/
def process_search_rows (text_key embedding_key : String)
    (score_threshold : Rat) (with_embedding : Bool) :
    List PyDict -> Except PyErr (List (LCDocument × Rat))
  | [] => .ok []
  | res :: rest =>
    match dictPop res "similarityScore" with
    | (none, _) => .error .keyError
    | (some sv, res) =>
      match sv with
      | .num score =>
        if score < score_threshold then
          process_search_rows text_key embedding_key score_threshold
            with_embedding rest
        else
          match search_row_document text_key embedding_key with_embedding
                  res with
          | .error e => .error e
          | .ok doc =>
            match process_search_rows text_key embedding_key score_threshold
                    with_embedding rest with
            | .error e => .error e
            | .ok tail => .ok ((doc, score) :: tail)
      | _ => .error .typeError

/-- `AzureCosmosDBMongoVCoreVectorSearch._similarity_search_with_score`:
build the kind-specific pipeline, run it through the (opaque) backend
`aggregate`, and process the returned rows. -/
def similarity_search_with_score_core
    (aggregate : List PyDict → List PyDict)
    (text_key embedding_key : String) (embeddings : List Rat) (k : Nat)
    (kind : CosmosDBVectorSearchType) (pre_filter : Option PyDict)
    (ef_search : Nat) (score_threshold : Rat) (l_search : Nat)
    (with_embedding : Bool) : Except PyErr (List (LCDocument × Rat)) :=
  process_search_rows text_key embedding_key score_threshold with_embedding
    (aggregate
      (similarity_pipeline embedding_key embeddings k kind pre_filter
        ef_search l_search))

/-- `self.score_threshold or 0.0`, the threshold the semantic-cache `lookup`
passes to `similarity_search`: a configured `None` (and a falsy `0.0`) both
give `0.0`. -/
def pyOrZero (o : Option Rat) : Rat :=
  match o with
  | none => 0
  | some t => if t = 0 then 0 else t

theorem dictGet?_apply_pre_filter_ne (params : PyDict)
    (pre_filter : Option PyDict) (k : String) (h : k ≠ "filter") :
    dictGet? (apply_pre_filter params pre_filter) k = dictGet? params k := by
  cases pre_filter with
  | none => rfl
  | some f =>
      by_cases hf : f.isEmpty
      · simp [apply_pre_filter, hf]
      · simp [apply_pre_filter, hf, dictGet?_dictSet_ne _ _ _ _ h]

theorem dictGet?_apply_pre_filter_filter (params : PyDict)
    (pre_filter : Option PyDict) (h : dictGet? params "filter" = none) :
    dictGet? (apply_pre_filter params pre_filter) "filter" =
      filterEntry pre_filter := by
  cases pre_filter with
  | none => simpa [apply_pre_filter, filterEntry] using h
  | some f =>
      by_cases hf : f.isEmpty
      · simpa [apply_pre_filter, filterEntry, hf] using h
      · simp [apply_pre_filter, filterEntry, hf, dictGet?_dictSet_self]

/-- C7: a DISKANN search request built without an explicit `lSearch` value —
either by calling `_get_pipeline_vector_diskann` with `l_search` omitted, or
through `_similarity_search_with_score` with its own `l_search` left at the
signature default — carries `lSearch = 40`, for every query vector, `k` and
optional pre-filter. -/
theorem diskann_default_l_search_is_40 (ek : String) (emb : List Rat)
    (k es : Nat) (pf : Option PyDict) (os : Option Rat) :
    l_search_default = 40 ∧
    (∃ params,
      searchStageParams
          (get_pipeline_vector_diskann_call ek emb k none pf os) =
        some params ∧
      dictGet? params "lSearch" = some (.num 40)) ∧
    (∃ params,
      searchStageParams
          (similarity_pipeline ek emb k .vector_diskann pf es
            l_search_default) =
        some params ∧
      dictGet? params "lSearch" = some (.num 40)) := by
  refine ⟨rfl, ⟨_, rfl, ?_⟩, ⟨_, rfl, ?_⟩⟩
  · rw [dictGet?_apply_pre_filter_ne _ _ _ (by decide)]
    simp [dictGet?, l_search_default]
  · rw [dictGet?_apply_pre_filter_ne _ _ _ (by decide)]
    simp [dictGet?, l_search_default]

/-- C8 counterexample: a supplied-but-empty pre-filter dict is falsy in
Python, so the builder emits no `filter` entry although a pre-filter was
supplied — the claimed "filter entry if and only if a pre-filter was
supplied" fails at `pre_filter = {}`. -/
theorem mongo_pipeline_filter_dropped_for_empty_prefilter :
    (some ([] : PyDict)).isSome = true ∧
    (searchStageParams
        (similarity_pipeline "vectorContent" [1] 4 .vector_ivf
          (some []) 40 40)).bind
      (fun p => dictGet? p "filter") = none := by
  exact ⟨rfl, rfl⟩

/-- C8 (amended): for every index kind, query vector, `k` and pre-filter,
the builder produces exactly two stages; stage 1 is a `$search` whose
`cosmosSearch` params carry the vector, the embedding path, `k`, the
kind-specific parameter (`efSearch` for HNSW, `lSearch` for DISKANN), and a
`filter` entry if and only if a non-empty pre-filter was supplied; stage 2
projects the similarity score and the full matched document. -/
theorem mongo_pipeline_two_stages (ek : String) (emb : List Rat)
    (k es ls : Nat) (kind : CosmosDBVectorSearchType) (pf : Option PyDict) :
    (similarity_pipeline ek emb k kind pf es ls).length = 2 ∧
    (similarity_pipeline ek emb k kind pf es ls).get? 1 =
      some [("$project", .obj
        [("similarityScore", .obj [("$meta", .str "searchScore")]),
         ("document", .str "$$ROOT")])] ∧
    ∃ params,
      searchStageParams (similarity_pipeline ek emb k kind pf es ls) =
        some params ∧
      dictGet? params "vector" = some (.arr (emb.map .num)) ∧
      dictGet? params "path" = some (.str ek) ∧
      dictGet? params "k" = some (.num k) ∧
      (kind = .vector_hnsw → dictGet? params "efSearch" = some (.num es)) ∧
      (kind = .vector_diskann → dictGet? params "lSearch" = some (.num ls)) ∧
      dictGet? params "filter" = filterEntry pf := by
  cases kind with
  | vector_ivf =>
      refine ⟨rfl, rfl, _, rfl, ?_, ?_, ?_, ?_, ?_, ?_⟩
      · rw [dictGet?_apply_pre_filter_ne _ _ _ (by decide)]; simp [dictGet?]
      · rw [dictGet?_apply_pre_filter_ne _ _ _ (by decide)]; simp [dictGet?]
      · rw [dictGet?_apply_pre_filter_ne _ _ _ (by decide)]; simp [dictGet?]
      · intro h; exact absurd h (by decide)
      · intro h; exact absurd h (by decide)
      · exact dictGet?_apply_pre_filter_filter _ _ rfl
  | vector_hnsw =>
      refine ⟨rfl, rfl, _, rfl, ?_, ?_, ?_, ?_, ?_, ?_⟩
      · rw [dictGet?_apply_pre_filter_ne _ _ _ (by decide)]; simp [dictGet?]
      · rw [dictGet?_apply_pre_filter_ne _ _ _ (by decide)]; simp [dictGet?]
      · rw [dictGet?_apply_pre_filter_ne _ _ _ (by decide)]; simp [dictGet?]
      · intro h
        rw [dictGet?_apply_pre_filter_ne _ _ _ (by decide)]; simp [dictGet?]
      · intro h; exact absurd h (by decide)
      · exact dictGet?_apply_pre_filter_filter _ _ rfl
  | vector_diskann =>
      refine ⟨rfl, rfl, _, rfl, ?_, ?_, ?_, ?_, ?_, ?_⟩
      · rw [dictGet?_apply_pre_filter_ne _ _ _ (by decide)]; simp [dictGet?]
      · rw [dictGet?_apply_pre_filter_ne _ _ _ (by decide)]; simp [dictGet?]
      · rw [dictGet?_apply_pre_filter_ne _ _ _ (by decide)]; simp [dictGet?]
      · intro h; exact absurd h (by decide)
      · intro h
        rw [dictGet?_apply_pre_filter_ne _ _ _ (by decide)]; simp [dictGet?]
      · exact dictGet?_apply_pre_filter_filter _ _ rfl


theorem process_search_rows_score_lower_bound (tk ek : String) (t : Rat)
    (we : Bool) :
    ∀ (rows : List PyDict) (out : List (LCDocument × Rat)),
      process_search_rows tk ek t we rows = .ok out →
      ∀ p ∈ out, ¬ p.2 < t := by
  intro rows
  induction rows with
  | nil =>
      intro out h p hp
      rw [process_search_rows] at h
      cases h
      cases hp
  | cons res rest ih =>
      intro out h p hp
      rw [process_search_rows] at h
      split at h
      · cases h
      · split at h
        · split at h
          · exact ih out h p hp
          · split at h
            · cases h
            · split at h
              · cases h
              · cases h
                rcases List.mem_cons.mp hp with hhd | htl
                · subst hhd
                  assumption
                · refine ih _ ?_ p htl
                  assumption
        · cases h

/-- C10: every Cosmos DB Mongo vCore similarity search run with the default
(no-threshold) configuration — `score_threshold or 0.0`, which is what the
semantic-cache `lookup` passes when the cache was configured with no score
threshold, and also the signature default `0.0` — silently discards result
rows whose `similarityScore` is strictly below `0.0`: no returned pair has a
negative score. -/
theorem mongo_search_discards_negative_scores
    (aggregate : List PyDict → List PyDict) (tk ek : String)
    (emb : List Rat) (k : Nat) (kind : CosmosDBVectorSearchType)
    (pf : Option PyDict) (es ls : Nat) (we : Bool)
    (out : List (LCDocument × Rat))
    (h : similarity_search_with_score_core aggregate tk ek emb k kind pf es
          (pyOrZero none) ls we = .ok out) :
    pyOrZero none = 0 ∧ ∀ p ∈ out, ¬ p.2 < 0 := by
  refine ⟨rfl, ?_⟩
  have hb := process_search_rows_score_lower_bound tk ek (pyOrZero none) we
    _ out h
  simpa [pyOrZero] using hb

/-- Witness for `mongo_search_discards_negative_scores`: a backend returning
one row with score `-1` and one with score `2` yields only the score-`2`
row, whose score is not negative. -/
theorem mongo_search_discards_negative_scores_witness :
    pyOrZero none = 0 ∧ ¬ (2 : Rat) < 0 := by
  have h := mongo_search_discards_negative_scores
    (fun _ => [[("similarityScore", JVal.num (-1)),
                ("document", JVal.obj [("textContent", JVal.str "s"),
                                       ("_id", JVal.num 3)])],
               [("similarityScore", JVal.num 2),
                ("document", JVal.obj [("textContent", JVal.str "t"),
                                       ("metadata",
                                        JVal.obj [("a", JVal.str "b")]),
                                       ("_id", JVal.num 7)])]])
    "textContent" "vectorContent" [] 1 .vector_ivf none 40 40 false
    [(LCDocument.mk (JVal.str "t") [("a", JVal.str "b"),
                                    ("_id", JVal.num 7)], 2)]
    (by rfl)
  exact ⟨h.1, h.2 (LCDocument.mk (JVal.str "t") [("a", JVal.str "b"),
    ("_id", JVal.num 7)], 2) (List.mem_singleton_self _)⟩

/-! ## Semantic caches (`cache.py`) -/

/-- A langchain `Generation`, modelled by its field dict (it is constructed
from decoded JSON as `Generation(**generation_dict)`; the pydantic
validation beyond requiring a mapping is not modelled). -/
abbrev Generation := PyDict

/-- `_index_name` / `_cache_name`: `"cache:" + sha256-hex(llm_string)`; the
hash is an opaque deterministic parameter. -/
def index_name (hash : String → String) (llm_string : String) : String :=
  "cache:" ++ hash llm_string

/-- State of an `AzureCosmosDBMongoVCoreSemanticCache`: the keys of the
process-local `_cache_dict` registry (index names resolved so far), and the
contents of the single backing Mongo collection, which every model
signature's vector store shares (`_get_llm_cache` always uses the same
`database_name.collection_name` namespace, only `index_name` varies). -/
structure MongoCacheState where
  cache_dict : List String
  collection : List PyDict

/-- Registry step of `_get_llm_cache`: on first use of a signature its index
name is added to `_cache_dict` (vector-store construction and the
`create_index` DDL call are opaque external effects). -/
def resolve_llm_cache (hash : String → String) (st : MongoCacheState)
    (llm_string : String) : MongoCacheState :=
  if index_name hash llm_string ∈ st.cache_dict then st
  else { st with cache_dict := st.cache_dict ++ [index_name hash llm_string] }

/-- `AzureCosmosDBMongoVCoreSemanticCache.update`: resolve the signature's
vector store, then `add_texts([prompt], [metadata])`, which inserts one
document `{textContent, vectorContent, metadata}` into the shared
collection with metadata `{llm_string, prompt, return_val}` (`dumps` is the
opaque structured codec, `embed` the opaque embedding model; the
`isinstance(gen, Generation)` guard is vacuous in this typed model). -/
def mongo_cache_update (hash : String → String)
    (dumps : List Generation → String) (embed : String → List Rat)
    (st : MongoCacheState) (prompt llm_string : String)
    (return_val : List Generation) : MongoCacheState :=
  let st := resolve_llm_cache hash st llm_string
  let metadata : PyDict :=
    [("llm_string", .str llm_string),
     ("prompt", .str prompt),
     ("return_val", .str (dumps return_val))]
  { st with collection := st.collection ++
      [[("textContent", .str prompt),
        ("vectorContent", .arr ((embed prompt).map .num)),
        ("metadata", .obj metadata)]] }

/-- `AzureCosmosDBMongoVCoreSemanticCache.clear`: if the signature's index
name is in `_cache_dict`, run `delete_many({})` on that store's collection —
which removes every document of the shared collection; otherwise do
nothing. No raising operation occurs on either path. -/
def mongo_cache_clear (hash : String → String) (st : MongoCacheState)
    (llm_string : String) : MongoCacheState :=
  if index_name hash llm_string ∈ st.cache_dict then
    { st with collection := [] }
  else st

/-- State of an `AzureCosmosDBNoSqlSemanticCache`: the keys of its
`_cache_dict` registry and the backing Cosmos NoSQL database (`none` once
deleted), which all model signatures share (every `_get_llm_cache` uses the
same `database_name`/`container_name`). -/
structure NoSqlCacheState where
  cache_dict : List String
  database : Option (List PyDict)

/-- `AzureCosmosDBNoSqlSemanticCache.clear`: if the signature's cache name is
in `_cache_dict`, `delete_database(database_name)` — dropping the whole
shared cache database; otherwise do nothing. -/
def nosql_cache_clear (hash : String → String) (st : NoSqlCacheState)
    (llm_string : String) : NoSqlCacheState :=
  if index_name hash llm_string ∈ st.cache_dict then
    { st with database := none }
  else st

/-- The `llm_string` recorded in a cache entry's metadata: which model
signature the entry belongs to. -/
def cache_entry_llm_string (doc : PyDict) : Option JVal :=
  match dictGet? doc "metadata" with
  | some (.obj m) => dictGet? m "llm_string"
  | _ => none

/-- `_load_generations_from_json`: `json.loads` the payload (the opaque
`jsonParse` parameter); a JSON decode failure is caught and re-raised as
`ValueError`; a decoded non-list, or a list element that is not a mapping,
raises `TypeError` from the `Generation(**generation_dict)` comprehension,
which the `except json.JSONDecodeError` clause does not catch. -/
def load_generations_from_json (jsonParse : String → Except Unit JVal)
    (generations_json : String) : Except PyErr (List Generation) :=
  match jsonParse generations_json with
  | .error _ => .error .valueError
  | .ok (.arr items) =>
      items.mapM (fun it =>
        match it with
        | .obj d => Except.ok d
        | _ => Except.error PyErr.typeError)
  | .ok _ => .error .typeError

/-- Deserialization loop of
`AzureCosmosDBMongoVCoreSemanticCache.lookup` over the documents returned by
`similarity_search`: per document, try the structured codec
(`loads(document.metadata["return_val"])`, the opaque `loadsC` parameter;
any exception — including a missing key or a non-string payload — is caught
by `except Exception`), then fall back to
`_load_generations_from_json(document.metadata["return_val"])`, whose
exceptions propagate (as does the `KeyError` of re-reading a missing
`return_val`, and the `TypeError` of `json.loads` on a non-string). -/
def mongo_cache_lookup_gens (loadsC : String → Except Unit (List Generation))
    (jsonParse : String → Except Unit JVal) :
    List LCDocument → Except PyErr (List Generation)
  | [] => .ok []
  | document :: rest =>
    let rv := dictGet? document.metadata "return_val"
    let structured : Except Unit (List Generation) :=
      match rv with
      | some (.str s) => loadsC s
      | _ => .error ()
    match structured with
    | .ok gs =>
        (mongo_cache_lookup_gens loadsC jsonParse rest).map
          (fun tail => gs ++ tail)
    | .error _ =>
      match rv with
      | none => .error .keyError
      | some (.str s) =>
        match load_generations_from_json jsonParse s with
        | .error e => .error e
        | .ok gs =>
            (mongo_cache_lookup_gens loadsC jsonParse rest).map
              (fun tail => gs ++ tail)
      | some _ => .error .typeError

/-- Tail of `AzureCosmosDBMongoVCoreSemanticCache.lookup` after the backend
similarity search returned `results`: collect generations per document (the
`if results:` guard is equivalent to iterating the possibly-empty list) and
return `generations if generations else None`. -/
def mongo_cache_lookup_deser
    (loadsC : String → Except Unit (List Generation))
    (jsonParse : String → Except Unit JVal) (results : List LCDocument) :
    Except PyErr (Option (List Generation)) :=
  (mongo_cache_lookup_gens loadsC jsonParse results).map
    (fun gs => if gs.isEmpty then none else some gs)

/-- C2 counterexample: a cached payload on which both the structured codec
and the legacy JSON parse fail makes `lookup` raise the `ValueError` of
`_load_generations_from_json` to the caller instead of treating the result
as a cache miss (returning `None`). -/
theorem cache_lookup_raises_when_both_codecs_fail :
    mongo_cache_lookup_deser (fun _ => .error ()) (fun _ => .error ())
      [LCDocument.mk (.str "p") [("return_val", .str "not json")]] =
    .error .valueError := by
  rfl

/-- C2 (amended): `lookup` first tries the structured codec on the stored
`return_val`; on failure it falls back to the legacy plain-JSON loader
`_load_generations_from_json`; but when that also fails to parse, `lookup`
raises `ValueError` to the caller — a doubly-undecodable payload is not
turned into a cache miss. -/
theorem cache_lookup_codec_chain
    (loadsC : String → Except Unit (List Generation))
    (jsonParse : String → Except Unit JVal) (c : JVal) (md : PyDict)
    (s : String) (h : dictGet? md "return_val" = some (.str s)) :
    (∀ gs, loadsC s = .ok gs →
      mongo_cache_lookup_deser loadsC jsonParse [LCDocument.mk c md] =
        .ok (if gs.isEmpty then none else some gs)) ∧
    (loadsC s = .error () →
      mongo_cache_lookup_deser loadsC jsonParse [LCDocument.mk c md] =
        (load_generations_from_json jsonParse s).map
          (fun gs => if gs.isEmpty then none else some gs)) ∧
    (loadsC s = .error () → jsonParse s = .error () →
      mongo_cache_lookup_deser loadsC jsonParse [LCDocument.mk c md] =
        .error .valueError) := by
  refine ⟨?_, ?_, ?_⟩
  · intro gs hl
    simp [mongo_cache_lookup_deser, mongo_cache_lookup_gens, h, hl,
      Except.map]
  · intro hl
    cases hlg : load_generations_from_json jsonParse s <;>
      simp [mongo_cache_lookup_deser, mongo_cache_lookup_gens, h, hl, hlg,
        Except.map]
  · intro hl hj
    simp [mongo_cache_lookup_deser, mongo_cache_lookup_gens,
      load_generations_from_json, h, hl, hj, Except.map]

/-- Witness for `cache_lookup_codec_chain`: with a structured codec that
decodes only `"G"` and a JSON parse that decodes only `"L"`, a `"G"`
payload returns its generations, an `"L"` payload is recovered through the
legacy fallback, and an undecodable payload raises `ValueError`. -/
theorem cache_lookup_codec_chain_witness :
    (mongo_cache_lookup_deser
        (fun t => if t = "G" then .ok [[("text", JVal.str "hi")]]
                  else .error ())
        (fun t => if t = "L" then .ok (.arr [.obj [("text", JVal.str "hi")]])
                  else .error ())
        [LCDocument.mk (.str "p") [("return_val", .str "G")]] =
      .ok (some [[("text", JVal.str "hi")]])) ∧
    (mongo_cache_lookup_deser
        (fun t => if t = "G" then .ok [[("text", JVal.str "hi")]]
                  else .error ())
        (fun t => if t = "L" then .ok (.arr [.obj [("text", JVal.str "hi")]])
                  else .error ())
        [LCDocument.mk (.str "p") [("return_val", .str "L")]] =
      .ok (some [[("text", JVal.str "hi")]])) ∧
    (mongo_cache_lookup_deser
        (fun t => if t = "G" then .ok [[("text", JVal.str "hi")]]
                  else .error ())
        (fun t => if t = "L" then .ok (.arr [.obj [("text", JVal.str "hi")]])
                  else .error ())
        [LCDocument.mk (.str "p") [("return_val", .str "X")]] =
      .error .valueError) := by
  refine ⟨?_, ?_, ?_⟩
  · have h := (cache_lookup_codec_chain
      (fun t => if t = "G" then .ok [[("text", JVal.str "hi")]]
                else .error ())
      (fun t => if t = "L" then .ok (.arr [.obj [("text", JVal.str "hi")]])
                else .error ())
      (.str "p") [("return_val", .str "G")] "G" rfl).1
      [[("text", JVal.str "hi")]] (by simp)
    simpa using h
  · have h := ((cache_lookup_codec_chain
      (fun t => if t = "G" then .ok [[("text", JVal.str "hi")]]
                else .error ())
      (fun t => if t = "L" then .ok (.arr [.obj [("text", JVal.str "hi")]])
                else .error ())
      (.str "p") [("return_val", .str "L")] "L" rfl).2.1) (by simp)
    simpa [load_generations_from_json] using h
  · exact ((cache_lookup_codec_chain
      (fun t => if t = "G" then .ok [[("text", JVal.str "hi")]]
                else .error ())
      (fun t => if t = "L" then .ok (.arr [.obj [("text", JVal.str "hi")]])
                else .error ())
      (.str "p") [("return_val", .str "X")] "X" rfl).2.2) (by simp) (by simp)

/-- C4 counterexample: two signatures are cached through the same shared
collection; after `clear("sigA")` the whole collection is empty, so the
cache entry belonging to `"sigB"` does not remain unchanged (the `sha256`
hash is instantiated with an injective stand-in). -/
theorem cache_clear_deletes_other_signatures :
    let idHash : String → String := fun s => s
    let st2 := mongo_cache_update idHash (fun _ => "[]") (fun _ => [])
      (mongo_cache_update idHash (fun _ => "[]") (fun _ => [])
        (MongoCacheState.mk [] []) "pA" "sigA" []) "pB" "sigB" []
    let entryB : PyDict :=
      [("textContent", JVal.str "pB"), ("vectorContent", JVal.arr []),
       ("metadata", JVal.obj [("llm_string", JVal.str "sigB"),
         ("prompt", JVal.str "pB"), ("return_val", JVal.str "[]")])]
    index_name idHash "sigA" ∈ st2.cache_dict ∧
    st2.collection.get? 1 = some entryB ∧
    cache_entry_llm_string entryB = some (JVal.str "sigB") ∧
    (mongo_cache_clear idHash st2 "sigA").collection = [] := by
  exact ⟨by decide, rfl, rfl, rfl⟩

/-- C4 (amended): `clear(llm_string)` on a signature whose index was
resolved in this process deletes every document of the shared backing store
— `delete_many({})` empties the whole Mongo vCore collection, and the NoSQL
variant drops the whole cache database — so cache entries of other model
signatures are deleted too; only the process-local registry is kept. -/
theorem cache_clear_wipes_shared_store (hash : String → String)
    (stM : MongoCacheState) (stN : NoSqlCacheState) (sig : String)
    (hM : index_name hash sig ∈ stM.cache_dict)
    (hN : index_name hash sig ∈ stN.cache_dict) :
    (mongo_cache_clear hash stM sig).collection = [] ∧
    (mongo_cache_clear hash stM sig).cache_dict = stM.cache_dict ∧
    (nosql_cache_clear hash stN sig).database = none := by
  simp [mongo_cache_clear, nosql_cache_clear, hM, hN]

/-- Witness for `cache_clear_wipes_shared_store` at a concrete resolved
state of both cache classes. -/
theorem cache_clear_wipes_shared_store_witness :
    (mongo_cache_clear (fun s => s)
      (MongoCacheState.mk ["cache:a"] [[("x", JVal.null)]]) "a").collection
      = [] ∧
    (mongo_cache_clear (fun s => s)
      (MongoCacheState.mk ["cache:a"] [[("x", JVal.null)]]) "a").cache_dict
      = ["cache:a"] ∧
    (nosql_cache_clear (fun s => s)
      (NoSqlCacheState.mk ["cache:a"] (some [[("y", JVal.null)]]))
      "a").database = none := by
  exact cache_clear_wipes_shared_store (fun s => s)
    (MongoCacheState.mk ["cache:a"] [[("x", JVal.null)]])
    (NoSqlCacheState.mk ["cache:a"] (some [[("y", JVal.null)]]))
    "a" (by decide) (by decide)

/-- C9: `clear(llm_string)` for a model signature whose index name was never
resolved into the process-local registry — which is the case whenever the
signature was never looked up or updated, since `_get_llm_cache` (called
only by `lookup`/`update`) is the sole registry writer — is a no-op for
both semantic-cache classes: the state is returned unchanged and no
deletion (nor any raising operation) is performed. -/
theorem cache_clear_unresolved_noop (hash : String → String)
    (stM : MongoCacheState) (stN : NoSqlCacheState) (sig : String)
    (hM : index_name hash sig ∉ stM.cache_dict)
    (hN : index_name hash sig ∉ stN.cache_dict) :
    mongo_cache_clear hash stM sig = stM ∧
    nosql_cache_clear hash stN sig = stN := by
  simp [mongo_cache_clear, nosql_cache_clear, hM, hN]

/-- Witness for `cache_clear_unresolved_noop`: clearing a fresh signature on
non-empty but unrelated cache states changes nothing. -/
theorem cache_clear_unresolved_noop_witness :
    mongo_cache_clear (fun s => s)
      (MongoCacheState.mk ["cache:a"] [[("x", JVal.null)]]) "b" =
      MongoCacheState.mk ["cache:a"] [[("x", JVal.null)]] ∧
    nosql_cache_clear (fun s => s)
      (NoSqlCacheState.mk ["cache:a"] (some [])) "b" =
      NoSqlCacheState.mk ["cache:a"] (some []) := by
  exact cache_clear_unresolved_noop (fun s => s)
    (MongoCacheState.mk ["cache:a"] [[("x", JVal.null)]])
    (NoSqlCacheState.mk ["cache:a"] (some [])) "b"
    (by decide) (by decide)

/-! ## Azure AI Search vector store (`azuresearch.py`) -/

/-- Default of the env-overridable `AZURESEARCH_FIELDS_ID` field name. -/
def FIELDS_ID : String := "id"

/-- Default of the env-overridable `AZURESEARCH_FIELDS_CONTENT` field name. -/
def FIELDS_CONTENT : String := "content"

/-- Default of the env-overridable `AZURESEARCH_FIELDS_CONTENT_VECTOR`
field name. -/
def FIELDS_CONTENT_VECTOR : String := "content_vector"

/-- Default of the env-overridable `AZURESEARCH_FIELDS_TAG` metadata field
name. -/
def FIELDS_METADATA : String := "metadata"

/-- `MAX_UPLOAD_BATCH_SIZE = 1000`. -/
def MAX_UPLOAD_BATCH_SIZE : Nat := 1000

/-- UTF-8 encoding of one character (`bytes(key, "utf-8")`). -/
def charUtf8Bytes (c : Char) : List Nat :=
  let n := c.toNat
  if n < 128 then [n]
  else if n < 2048 then [192 + n / 64, 128 + n % 64]
  else if n < 65536 then [224 + n / 4096, 128 + (n / 64) % 64, 128 + n % 64]
  else [240 + n / 262144, 128 + (n / 4096) % 64, 128 + (n / 64) % 64,
        128 + n % 64]

/-- UTF-8 bytes of a string. -/
def stringUtf8Bytes (s : String) : List Nat :=
  (s.data.map charUtf8Bytes).flatten

/-- The URL-safe base64 alphabet (`+`/`/` replaced by `-`/`_`). -/
def b64_alphabet : List Char :=
  "ABCDEFGHIJKLMNOPQRSTUVWXYZabcdefghijklmnopqrstuvwxyz0123456789-_".toList

/-- Digit of the URL-safe base64 alphabet. -/
def b64_char (n : Nat) : Char :=
  b64_alphabet.getD n 'A'

/-- Base64 encoding of a byte sequence with `=` padding. -/
def b64_encode_bytes : List Nat → List Char
  | [] => []
  | [b0] => [b64_char (b0 / 4), b64_char (b0 % 4 * 16), '=', '=']
  | [b0, b1] => [b64_char (b0 / 4), b64_char (b0 % 4 * 16 + b1 / 16),
                 b64_char (b1 % 16 * 4), '=']
  | b0 :: b1 :: b2 :: rest =>
      b64_char (b0 / 4) :: b64_char (b0 % 4 * 16 + b1 / 16) ::
      b64_char (b1 % 16 * 4 + b2 / 64) :: b64_char (b2 % 64) ::
      b64_encode_bytes rest

/-- `base64.urlsafe_b64encode(bytes(s, "utf-8")).decode("ascii")`. -/
def urlsafe_b64encode (s : String) : String :=
  String.mk (b64_encode_bytes (stringUtf8Bytes s))

/-- Python truthiness of an `Optional[List]`: `None` and the empty list are
falsy (the `if keys:` / `if metadatas:` tests). -/
def pyTruthyOptList {α : Type} (o : Option (List α)) : Bool :=
  match o with
  | none => false
  | some l => !l.isEmpty

/-- The upload document both `add_embeddings` and `aadd_embeddings` build
per `(text, embedding)` pair: the `@search.action`, id, content, float32
vector and JSON-dumped metadata fields, then `doc.update` with the metadata
items whose keys are index field names (`jdumps` models `json.dumps`, `f32`
the `np.float32` round-trip). -/
def az_upload_doc (fields : List String) (jdumps : PyDict → String)
    (f32 : List Rat → List Rat) (key text : String) (embedding : List Rat)
    (metadata : PyDict) : PyDict :=
  let doc : PyDict :=
    [("@search.action", .str "upload"),
     (FIELDS_ID, .str key),
     (FIELDS_CONTENT, .str text),
     (FIELDS_CONTENT_VECTOR, .arr ((f32 embedding).map .num)),
     (FIELDS_METADATA, .str (jdumps metadata))]
  if metadata.isEmpty then doc
  else dictUpdate doc (metadata.filter (fun kv => fields.contains kv.1))

/-- Observable result of an `add_embeddings` call: the batches uploaded to
the backend, in order, and the returned ids or raised exception. -/
structure AddResult where
  batches : List (List PyDict)
  outcome : Except PyErr (List String)

/-- Loop of `AzureSearch.add_embeddings` (synchronous): a provided key is
used as is (`key = keys[i]`); only a generated `uuid4` key is base64
encoded. Documents accumulate into `data`, which is uploaded whenever it
reaches `MAX_UPLOAD_BATCH_SIZE` and once more at the end when non-empty; a
response with any non-succeeded document raises
`LangChainException(response)`. -/
def add_embeddings_loop (fields : List String) (jdumps : PyDict → String)
    (f32 : List Rat → List Rat) (uuid4 : Nat → String)
    (upload : List PyDict → List Bool) (keys : Option (List String))
    (metadatas : Option (List PyDict)) :
    Nat → List (String × List Rat) → List PyDict → List String →
      List (List PyDict) → AddResult
  | _, [], data, ids, batches =>
      if data.length = 0 then AddResult.mk batches (.ok ids)
      else
        if (upload data).all (fun r => r) then
          AddResult.mk (batches ++ [data]) (.ok ids)
        else
          AddResult.mk (batches ++ [data])
            (.error (.langchainException (upload data)))
  | i, (text, embedding) :: rest, data, ids, batches =>
      match (if pyTruthyOptList keys then
               match (keys.getD []).get? i with
               | some key => Except.ok key
               | none => Except.error PyErr.indexError
             else Except.ok (urlsafe_b64encode (uuid4 i))) with
      | .error e => AddResult.mk batches (.error e)
      | .ok key =>
        match (if pyTruthyOptList metadatas then
                 match (metadatas.getD []).get? i with
                 | some m => Except.ok m
                 | none => Except.error PyErr.indexError
               else Except.ok ([] : PyDict)) with
        | .error e => AddResult.mk batches (.error e)
        | .ok metadata =>
          if (data ++ [az_upload_doc fields jdumps f32 key text embedding
                metadata]).length = MAX_UPLOAD_BATCH_SIZE then
            if (upload (data ++ [az_upload_doc fields jdumps f32 key text
                  embedding metadata])).all (fun r => r) then
              add_embeddings_loop fields jdumps f32 uuid4 upload keys
                metadatas (i + 1) rest [] (ids ++ [key])
                (batches ++ [data ++ [az_upload_doc fields jdumps f32 key
                  text embedding metadata]])
            else
              AddResult.mk
                (batches ++ [data ++ [az_upload_doc fields jdumps f32 key
                  text embedding metadata]])
                (.error (.langchainException
                  (upload (data ++ [az_upload_doc fields jdumps f32 key text
                    embedding metadata]))))
          else
            add_embeddings_loop fields jdumps f32 uuid4 upload keys
              metadatas (i + 1) rest
              (data ++ [az_upload_doc fields jdumps f32 key text embedding
                metadata])
              (ids ++ [key]) batches

/-- `AzureSearch.add_embeddings`. -/
def add_embeddings (fields : List String) (jdumps : PyDict → String)
    (f32 : List Rat → List Rat) (uuid4 : Nat → String)
    (upload : List PyDict → List Bool)
    (text_embeddings : List (String × List Rat))
    (metadatas : Option (List PyDict)) (keys : Option (List String)) :
    AddResult :=
  add_embeddings_loop fields jdumps f32 uuid4 upload keys metadatas 0
    text_embeddings [] [] []

/-- Loop of `AzureSearch.aadd_embeddings` (asynchronous): identical to the
synchronous loop except for the key computation — here
`key = keys[i] if keys else str(uuid.uuid4())` is base64 encoded
unconditionally, so an explicitly provided key is encoded too. -/
def aadd_embeddings_loop (fields : List String) (jdumps : PyDict → String)
    (f32 : List Rat → List Rat) (uuid4 : Nat → String)
    (upload : List PyDict → List Bool) (keys : Option (List String))
    (metadatas : Option (List PyDict)) :
    Nat → List (String × List Rat) → List PyDict → List String →
      List (List PyDict) → AddResult
  | _, [], data, ids, batches =>
      if data.length = 0 then AddResult.mk batches (.ok ids)
      else
        if (upload data).all (fun r => r) then
          AddResult.mk (batches ++ [data]) (.ok ids)
        else
          AddResult.mk (batches ++ [data])
            (.error (.langchainException (upload data)))
  | i, (text, embedding) :: rest, data, ids, batches =>
      match (if pyTruthyOptList keys then
               match (keys.getD []).get? i with
               | some key => Except.ok (urlsafe_b64encode key)
               | none => Except.error PyErr.indexError
             else Except.ok (urlsafe_b64encode (uuid4 i))) with
      | .error e => AddResult.mk batches (.error e)
      | .ok key =>
        match (if pyTruthyOptList metadatas then
                 match (metadatas.getD []).get? i with
                 | some m => Except.ok m
                 | none => Except.error PyErr.indexError
               else Except.ok ([] : PyDict)) with
        | .error e => AddResult.mk batches (.error e)
        | .ok metadata =>
          if (data ++ [az_upload_doc fields jdumps f32 key text embedding
                metadata]).length = MAX_UPLOAD_BATCH_SIZE then
            if (upload (data ++ [az_upload_doc fields jdumps f32 key text
                  embedding metadata])).all (fun r => r) then
              aadd_embeddings_loop fields jdumps f32 uuid4 upload keys
                metadatas (i + 1) rest [] (ids ++ [key])
                (batches ++ [data ++ [az_upload_doc fields jdumps f32 key
                  text embedding metadata]])
            else
              AddResult.mk
                (batches ++ [data ++ [az_upload_doc fields jdumps f32 key
                  text embedding metadata]])
                (.error (.langchainException
                  (upload (data ++ [az_upload_doc fields jdumps f32 key text
                    embedding metadata]))))
          else
            aadd_embeddings_loop fields jdumps f32 uuid4 upload keys
              metadatas (i + 1) rest
              (data ++ [az_upload_doc fields jdumps f32 key text embedding
                metadata])
              (ids ++ [key]) batches

/-- `AzureSearch.aadd_embeddings`. -/
def aadd_embeddings (fields : List String) (jdumps : PyDict → String)
    (f32 : List Rat → List Rat) (uuid4 : Nat → String)
    (upload : List PyDict → List Bool)
    (text_embeddings : List (String × List Rat))
    (metadatas : Option (List PyDict)) (keys : Option (List String)) :
    AddResult :=
  aadd_embeddings_loop fields jdumps f32 uuid4 upload keys metadatas 0
    text_embeddings [] [] []

/-- C1: `add_embeddings` and `aadd_embeddings`, given the same single
`(text, embedding)` pair, no metadatas, the same explicit key `"key1"` and
a backend that accepts every upload, upload documents with different id
field values (`"key1"` versus its base64 encoding `"a2V5MQ=="`) and return
different id lists — the synchronous and asynchronous variants do not
produce identical results on identical inputs and backend responses. -/
theorem azure_sync_async_add_embeddings_diverge :
    (add_embeddings [] (fun _ => "null") (fun v => v) (fun _ => "u")
        (fun docs => docs.map (fun _ => true)) [("text", [1])] none
        (some ["key1"])).outcome = .ok ["key1"] ∧
    (aadd_embeddings [] (fun _ => "null") (fun v => v) (fun _ => "u")
        (fun docs => docs.map (fun _ => true)) [("text", [1])] none
        (some ["key1"])).outcome = .ok ["a2V5MQ=="] ∧
    (add_embeddings [] (fun _ => "null") (fun v => v) (fun _ => "u")
        (fun docs => docs.map (fun _ => true)) [("text", [1])] none
        (some ["key1"])).batches.map
      (fun b => b.map (fun d => dictGet? d FIELDS_ID)) =
      [[some (.str "key1")]] ∧
    (aadd_embeddings [] (fun _ => "null") (fun v => v) (fun _ => "u")
        (fun docs => docs.map (fun _ => true)) [("text", [1])] none
        (some ["key1"])).batches.map
      (fun b => b.map (fun d => dictGet? d FIELDS_ID)) =
      [[some (.str "a2V5MQ==")]] := by
  exact ⟨rfl, rfl, rfl, rfl⟩

theorem getLast?_append_singleton {α : Type} (l : List α) (a : α) :
    (l ++ [a]).getLast? = some a :=
  List.getLast?_concat l

theorem add_embeddings_loop_inv (fields : List String)
    (jdumps : PyDict → String) (f32 : List Rat → List Rat)
    (uuid4 : Nat → String) (upload : List PyDict → List Bool)
    (keys : Option (List String)) (metadatas : Option (List PyDict)) :
    ∀ (tes : List (String × List Rat)) (i : Nat) (data : List PyDict)
      (ids : List String) (batches : List (List PyDict)),
      data.length < MAX_UPLOAD_BATCH_SIZE →
      (∀ b ∈ batches, b.length ≤ MAX_UPLOAD_BATCH_SIZE ∧
          (upload b).all (fun r => r) = true) →
      ∀ b ∈ (add_embeddings_loop fields jdumps f32 uuid4 upload keys
              metadatas i tes data ids batches).batches,
        b.length ≤ MAX_UPLOAD_BATCH_SIZE ∧
        ((upload b).all (fun r => r) = false →
          (add_embeddings_loop fields jdumps f32 uuid4 upload keys metadatas
              i tes data ids batches).outcome =
            .error (.langchainException (upload b)) ∧
          (add_embeddings_loop fields jdumps f32 uuid4 upload keys metadatas
              i tes data ids batches).batches.getLast? = some b) := by
  intro tes
  induction tes with
  | nil =>
      intro i data ids batches hlen hprev
      rw [add_embeddings_loop]
      split
      · intro b hb
        refine ⟨(hprev b hb).1, fun hf => ?_⟩
        have h2 := (hprev b hb).2
        rw [hf] at h2
        cases h2
      · split
        · intro b hb
          rcases List.mem_append.mp hb with hbb | hbd
          · refine ⟨(hprev b hbb).1, fun hf => ?_⟩
            have h2 := (hprev b hbb).2
            rw [hf] at h2
            cases h2
          · have hbd' := List.mem_singleton.mp hbd
            subst hbd'
            refine ⟨le_of_lt hlen, fun hf => ?_⟩
            rename_i hall
            rw [hf] at hall
            cases hall
        · intro b hb
          rcases List.mem_append.mp hb with hbb | hbd
          · refine ⟨(hprev b hbb).1, fun hf => ?_⟩
            have h2 := (hprev b hbb).2
            rw [hf] at h2
            cases h2
          · have hbd' := List.mem_singleton.mp hbd
            subst hbd'
            exact ⟨le_of_lt hlen,
              fun _ => ⟨rfl, getLast?_append_singleton _ _⟩⟩
  | cons te rest ih =>
      intro i data ids batches hlen hprev
      obtain ⟨text, embedding⟩ := te
      rw [add_embeddings_loop]
      split
      · intro b hb
        refine ⟨(hprev b hb).1, fun hf => ?_⟩
        have h2 := (hprev b hb).2
        rw [hf] at h2
        cases h2
      · split
        · intro b hb
          refine ⟨(hprev b hb).1, fun hf => ?_⟩
          have h2 := (hprev b hb).2
          rw [hf] at h2
          cases h2
        · split
          · split
            · refine ih (i + 1) [] _ _
                (by simp [MAX_UPLOAD_BATCH_SIZE]) ?_
              intro b hb
              rcases List.mem_append.mp hb with hbb | hbd
              · exact hprev b hbb
              · have hbd' := List.mem_singleton.mp hbd
                subst hbd'
                exact ⟨le_of_eq (by assumption), by assumption⟩
            · intro b hb
              rcases List.mem_append.mp hb with hbb | hbd
              · refine ⟨(hprev b hbb).1, fun hf => ?_⟩
                have h2 := (hprev b hbb).2
                rw [hf] at h2
                cases h2
              · have hbd' := List.mem_singleton.mp hbd
                subst hbd'
                exact ⟨le_of_eq (by assumption),
                  fun _ => ⟨rfl, getLast?_append_singleton _ _⟩⟩
          · refine ih (i + 1) _ _ batches ?_ hprev
            rename_i hfull
            simp only [List.length_append, List.length_singleton,
              MAX_UPLOAD_BATCH_SIZE] at hlen hfull ⊢
            omega

theorem aadd_embeddings_loop_inv (fields : List String)
    (jdumps : PyDict → String) (f32 : List Rat → List Rat)
    (uuid4 : Nat → String) (upload : List PyDict → List Bool)
    (keys : Option (List String)) (metadatas : Option (List PyDict)) :
    ∀ (tes : List (String × List Rat)) (i : Nat) (data : List PyDict)
      (ids : List String) (batches : List (List PyDict)),
      data.length < MAX_UPLOAD_BATCH_SIZE →
      (∀ b ∈ batches, b.length ≤ MAX_UPLOAD_BATCH_SIZE ∧
          (upload b).all (fun r => r) = true) →
      ∀ b ∈ (aadd_embeddings_loop fields jdumps f32 uuid4 upload keys
              metadatas i tes data ids batches).batches,
        b.length ≤ MAX_UPLOAD_BATCH_SIZE ∧
        ((upload b).all (fun r => r) = false →
          (aadd_embeddings_loop fields jdumps f32 uuid4 upload keys metadatas
              i tes data ids batches).outcome =
            .error (.langchainException (upload b)) ∧
          (aadd_embeddings_loop fields jdumps f32 uuid4 upload keys metadatas
              i tes data ids batches).batches.getLast? = some b) := by
  intro tes
  induction tes with
  | nil =>
      intro i data ids batches hlen hprev
      rw [aadd_embeddings_loop]
      split
      · intro b hb
        refine ⟨(hprev b hb).1, fun hf => ?_⟩
        have h2 := (hprev b hb).2
        rw [hf] at h2
        cases h2
      · split
        · intro b hb
          rcases List.mem_append.mp hb with hbb | hbd
          · refine ⟨(hprev b hbb).1, fun hf => ?_⟩
            have h2 := (hprev b hbb).2
            rw [hf] at h2
            cases h2
          · have hbd' := List.mem_singleton.mp hbd
            subst hbd'
            refine ⟨le_of_lt hlen, fun hf => ?_⟩
            rename_i hall
            rw [hf] at hall
            cases hall
        · intro b hb
          rcases List.mem_append.mp hb with hbb | hbd
          · refine ⟨(hprev b hbb).1, fun hf => ?_⟩
            have h2 := (hprev b hbb).2
            rw [hf] at h2
            cases h2
          · have hbd' := List.mem_singleton.mp hbd
            subst hbd'
            exact ⟨le_of_lt hlen,
              fun _ => ⟨rfl, getLast?_append_singleton _ _⟩⟩
  | cons te rest ih =>
      intro i data ids batches hlen hprev
      obtain ⟨text, embedding⟩ := te
      rw [aadd_embeddings_loop]
      split
      · intro b hb
        refine ⟨(hprev b hb).1, fun hf => ?_⟩
        have h2 := (hprev b hb).2
        rw [hf] at h2
        cases h2
      · split
        · intro b hb
          refine ⟨(hprev b hb).1, fun hf => ?_⟩
          have h2 := (hprev b hb).2
          rw [hf] at h2
          cases h2
        · split
          · split
            · refine ih (i + 1) [] _ _
                (by simp [MAX_UPLOAD_BATCH_SIZE]) ?_
              intro b hb
              rcases List.mem_append.mp hb with hbb | hbd
              · exact hprev b hbb
              · have hbd' := List.mem_singleton.mp hbd
                subst hbd'
                exact ⟨le_of_eq (by assumption), by assumption⟩
            · intro b hb
              rcases List.mem_append.mp hb with hbb | hbd
              · refine ⟨(hprev b hbb).1, fun hf => ?_⟩
                have h2 := (hprev b hbb).2
                rw [hf] at h2
                cases h2
              · have hbd' := List.mem_singleton.mp hbd
                subst hbd'
                exact ⟨le_of_eq (by assumption),
                  fun _ => ⟨rfl, getLast?_append_singleton _ _⟩⟩
          · refine ih (i + 1) _ _ batches ?_ hprev
            rename_i hfull
            simp only [List.length_append, List.length_singleton,
              MAX_UPLOAD_BATCH_SIZE] at hlen hfull ⊢
            omega

/-- C6: both `add_embeddings` and `aadd_embeddings` upload only batches of
at most `MAX_UPLOAD_BATCH_SIZE = 1000` documents, and whenever the backend
response reports that any document of an uploaded batch failed, the call
raises `LangChainException` carrying that per-document response report and
the failing batch is the last one uploaded — no subsequent batch is
attempted and no failed item is dropped. -/
theorem azure_add_embeddings_batching (fields : List String)
    (jdumps : PyDict → String) (f32 : List Rat → List Rat)
    (uuid4 : Nat → String) (upload : List PyDict → List Bool)
    (tes : List (String × List Rat)) (metadatas : Option (List PyDict))
    (keys : Option (List String)) :
    (∀ b ∈ (add_embeddings fields jdumps f32 uuid4 upload tes metadatas
        keys).batches,
      b.length ≤ MAX_UPLOAD_BATCH_SIZE ∧
      ((upload b).all (fun r => r) = false →
        (add_embeddings fields jdumps f32 uuid4 upload tes metadatas
            keys).outcome = .error (.langchainException (upload b)) ∧
        (add_embeddings fields jdumps f32 uuid4 upload tes metadatas
            keys).batches.getLast? = some b)) ∧
    (∀ b ∈ (aadd_embeddings fields jdumps f32 uuid4 upload tes metadatas
        keys).batches,
      b.length ≤ MAX_UPLOAD_BATCH_SIZE ∧
      ((upload b).all (fun r => r) = false →
        (aadd_embeddings fields jdumps f32 uuid4 upload tes metadatas
            keys).outcome = .error (.langchainException (upload b)) ∧
        (aadd_embeddings fields jdumps f32 uuid4 upload tes metadatas
            keys).batches.getLast? = some b)) := by
  constructor
  · exact add_embeddings_loop_inv fields jdumps f32 uuid4 upload keys
      metadatas tes 0 [] [] [] (by simp [MAX_UPLOAD_BATCH_SIZE])
      (by intro b hb0; cases hb0)
  · exact aadd_embeddings_loop_inv fields jdumps f32 uuid4 upload keys
      metadatas tes 0 [] [] [] (by simp [MAX_UPLOAD_BATCH_SIZE])
      (by intro b hb0; cases hb0)

/-- Witness for `azure_add_embeddings_batching`: one document whose upload
the backend rejects — the call raises `LangChainException([false])` and the
rejected batch (of size 1 ≤ 1000) is the last one uploaded. -/
theorem azure_add_embeddings_batching_witness :
    (add_embeddings [] (fun _ => "null") (fun v => v) (fun _ => "u")
        (fun _ => [false]) [("t", [1])] none none).outcome =
      .error (.langchainException [false]) ∧
    ([az_upload_doc [] (fun _ => "null") (fun v => v) "dQ==" "t" [1] []] :
      List PyDict).length ≤ MAX_UPLOAD_BATCH_SIZE := by
  have h := (azure_add_embeddings_batching [] (fun _ => "null")
    (fun v => v) (fun _ => "u") (fun _ => [false]) [("t", [1])] none
    none).1
    [az_upload_doc [] (fun _ => "null") (fun v => v) "dQ==" "t" [1] []]
    (by rw [show (add_embeddings [] (fun _ => "null") (fun v => v)
          (fun _ => "u") (fun _ => [false]) [("t", [1])] none
          none).batches =
        [[az_upload_doc [] (fun _ => "null") (fun v => v) "dQ==" "t" [1]
          []]] from rfl]
        exact List.mem_singleton.mpr rfl)
  exact ⟨(h.2 rfl).1, h.1⟩

theorem dictPop_fst (d : PyDict) (k : String) :
    (dictPop d k).1 = dictGet? d k := by
  induction d with
  | nil => rfl
  | cons hd tl ih =>
      obtain ⟨k0, v0⟩ := hd
      by_cases h : k0 = k <;> simp [dictPop, dictGet?, h, ih]

theorem dictGet?_dictPop_snd_ne (d : PyDict) (k k' : String)
    (h : k' ≠ k) : dictGet? (dictPop d k).2 k' = dictGet? d k' := by
  induction d with
  | nil => rfl
  | cons hd tl ih =>
      obtain ⟨k0, v0⟩ := hd
      by_cases h0 : k0 = k
      · subst h0
        simp [dictPop, dictGet?, Ne.symm h]
      · by_cases h1 : k0 = k' <;> simp [dictPop, dictGet?, h0, h1, h, ih]

/-- Python truthiness of a dict value (`if result.get("@search.captions")`):
`None`, `False`, `0`, and empty strings/lists/dicts are falsy. -/
def pyTruthyJ (v : JVal) : Bool :=
  match v with
  | .null => false
  | .bool b => b
  | .str s => !s.isEmpty
  | .num q => q != 0
  | .arr l => !l.isEmpty
  | .obj m => !m.isEmpty

/-- `_result_to_document`: the plain/hybrid result normalizer. A `metadata`
field that is already a decoded structure (`isinstance(..., dict)`) is used
directly; a string is `json.loads`-decoded (decode failure propagates
`json.JSONDecodeError`, a `ValueError`; a decoded non-mapping fails the
`{**...}` unpacking with `TypeError`; `json.loads` of any other type raises
`TypeError`); an absent `metadata` field falls back to the remaining row
fields minus the content and vector fields. Then the id is popped and folded
into the metadata, and the content field is read (`KeyError` if absent). -/
def result_to_document (jsonParse : String → Except Unit JVal)
    (result : PyDict) : Except PyErr LCDocument :=
  match (match dictGet? result FIELDS_METADATA with
         | some (.obj m) => Except.ok m
         | some (.str s) =>
             match jsonParse s with
             | .ok (.obj m) => Except.ok m
             | .ok _ => Except.error PyErr.typeError
             | .error _ => Except.error PyErr.valueError
         | some _ => Except.error PyErr.typeError
         | none => Except.ok (result.filter (fun kv =>
             kv.1 != FIELDS_CONTENT_VECTOR && kv.1 != FIELDS_CONTENT))) with
  | .error e => .error e
  | .ok fields_metadata =>
    match dictGet? (dictPop result FIELDS_ID).2 FIELDS_CONTENT with
    | none => .error .keyError
    | some content =>
        .ok (LCDocument.mk content
          (dictUpdate
            (match (dictPop result FIELDS_ID).1 with
             | some v => [(FIELDS_ID, v)]
             | none => [])
            fields_metadata))

/-- Per-row normalizer of `semantic_hybrid_search_with_score_and_rerank`
and its async twin (the body of their identical result list comprehension),
given the prebuilt semantic-answers dict: pop the content (`KeyError` if
absent), pop the id, then — unlike `_result_to_document` — decode the
`metadata` field with `json.loads` unconditionally when it is present, so
an already-decoded structure raises `TypeError`; attach `captions` (from a
truthy `@search.captions`, whose first element's `text`/`highlights`
attributes are modelled as key lookups) and `answers` (looked up under the
already-popped id field, hence under `""`), and read the two scores. -/
def semantic_hybrid_doc_of_row (jsonParse : String → Except Unit JVal)
    (semantic_answers_dict : PyDict) (result : PyDict) :
    Except PyErr (LCDocument × Rat × Rat) :=
  match dictPop result FIELDS_CONTENT with
  | (none, _) => .error .keyError
  | (some content, result) =>
    match dictPop result FIELDS_ID with
    | (idv?, result) =>
      match (match dictGet? result FIELDS_METADATA with
             | some (.str s) =>
                 match jsonParse s with
                 | .ok (.obj m) => Except.ok m
                 | .ok _ => Except.error PyErr.typeError
                 | .error _ => Except.error PyErr.valueError
             | some _ => Except.error PyErr.typeError
             | none => Except.ok (result.filter (fun kv =>
                 kv.1 != FIELDS_CONTENT_VECTOR))) with
      | .error e => .error e
      | .ok fields_metadata =>
        match (match dictGet? result "@search.captions" with
               | some cv =>
                   if pyTruthyJ cv then
                     match cv with
                     | .arr items =>
                         match items.head? with
                         | some (.obj cap) =>
                             match dictGet? cap "text",
                                   dictGet? cap "highlights" with
                             | some t, some hl =>
                                 Except.ok ([("text", t),
                                   ("highlights", hl)] : PyDict)
                             | _, _ => Except.error PyErr.attributeError
                         | some _ => Except.error PyErr.attributeError
                         | none => Except.error PyErr.indexError
                     | _ => Except.error PyErr.typeError
                   else Except.ok ([] : PyDict)
               | none => Except.ok ([] : PyDict)) with
        | .error e => .error e
        | .ok captions =>
          let answers : JVal :=
            match dictGet? result FIELDS_ID with
            | some (.str s2) =>
                (dictGet? semantic_answers_dict s2).getD (.str "")
            | some _ => .str ""
            | none => (dictGet? semantic_answers_dict "").getD (.str "")
          match dictGet? result "@search.score" with
          | some (.num score) =>
            match dictGet? result "@search.reranker_score" with
            | some (.num rerank) =>
                .ok (LCDocument.mk content
                  (dictUpdate
                    (dictUpdate
                      (match idv? with
                       | some v => [(FIELDS_ID, v)]
                       | none => [])
                      fields_metadata)
                    [("captions", .obj captions), ("answers", answers)]),
                  score, rerank)
            | some _ => .error .typeError
            | none => .error .keyError
          | some _ => .error .typeError
          | none => .error .keyError

/-- The reorder loop shared by both MMR reorder functions: walk the index
list returned by `maximal_marginal_relevance`, break at the `-1` sentinel,
and collect `(documents[x], scores[x])` (Python list indexing, so a bad
index raises `IndexError`). -/
def mmr_take (documents : List LCDocument) (scores : List Rat) :
    List Int → Except PyErr (List (LCDocument × Rat))
  | [] => .ok []
  | x :: xs =>
    if x = -1 then .ok []
    else
      match pyIndex documents x with
      | .error e => .error e
      | .ok d =>
        match pyIndex scores x with
        | .error e => .error e
        | .ok s =>
          match mmr_take documents scores xs with
          | .error e => .error e
          | .ok tail => .ok ((d, s) :: tail)

/-- Per-row conversion of the two MMR reorder functions:
`(_result_to_document(result), float(result["@search.score"]),
result[FIELDS_CONTENT_VECTOR])`. -/
def mmr_row_convert (jsonParse : String → Except Unit JVal)
    (result : PyDict) : Except PyErr (LCDocument × Rat × JVal) :=
  match result_to_document jsonParse result with
  | .error e => .error e
  | .ok d =>
    match dictGet? result "@search.score" with
    | some (.num score) =>
      match dictGet? result FIELDS_CONTENT_VECTOR with
      | some v => .ok (d, score, v)
      | none => .error .keyError
    | some _ => .error .typeError
    | none => .error .keyError

/-- `_reorder_results_with_maximal_marginal_relevance` (synchronous):
convert the rows, return `[]` when there are none (`if not docs`), then
re-order by the opaque `maximal_marginal_relevance` and collect until the
`-1` sentinel. -/
def reorder_results_mmr
    (mmr : List Rat → List JVal → Nat → Rat → List Int)
    (jsonParse : String → Except Unit JVal) (results : List PyDict)
    (query_embedding : List Rat) (lambda_mult : Rat) (k : Nat) :
    Except PyErr (List (LCDocument × Rat)) :=
  match results.mapM (mmr_row_convert jsonParse) with
  | .error e => .error e
  | .ok docs =>
    if docs.isEmpty then .ok []
    else
      mmr_take (docs.map (fun t => t.1)) (docs.map (fun t => t.2.1))
        (mmr query_embedding (docs.map (fun t => t.2.2)) k lambda_mult)

/-- `_areorder_results_with_maximal_marginal_relevance` (asynchronous):
identical to the synchronous variant except that it has no empty guard —
`documents, scores, vectors = map(list, zip(*docs))` on zero rows unpacks
zero values into three targets and raises `ValueError`. -/
def areorder_results_mmr
    (mmr : List Rat → List JVal → Nat → Rat → List Int)
    (jsonParse : String → Except Unit JVal) (results : List PyDict)
    (query_embedding : List Rat) (lambda_mult : Rat) (k : Nat) :
    Except PyErr (List (LCDocument × Rat)) :=
  match results.mapM (mmr_row_convert jsonParse) with
  | .error e => .error e
  | .ok docs =>
    match docs with
    | [] => .error .valueError
    | _ =>
      mmr_take (docs.map (fun t => t.1)) (docs.map (fun t => t.2.1))
        (mmr query_embedding (docs.map (fun t => t.2.2)) k lambda_mult)

/-- C3: on zero fetched result rows the synchronous MMR reorder
short-circuits to the empty output, but the asynchronous one raises
`ValueError` (the empty-`docs` guard is missing there), for any `mmr`
function and any query embedding — exhibited at a concrete input. -/
theorem azure_mmr_reorder_empty_sync_async :
    reorder_results_mmr (fun _ _ _ _ => []) (fun _ => .error ()) []
      [] (1 / 2) 4 = .ok [] ∧
    areorder_results_mmr (fun _ _ _ _ => []) (fun _ => .error ()) []
      [] (1 / 2) 4 = .error .valueError := by
  exact ⟨rfl, rfl⟩

/-- C5 counterexample: on a row whose `metadata` field is already a decoded
structure, the plain/hybrid normalizer `_result_to_document` uses it as the
metadata base, but the semantic-hybrid normalizer `json.loads`-decodes it
unconditionally and raises `TypeError` — so the claimed tolerance in
"every search mode" fails in the semantic-hybrid mode. -/
theorem azure_semantic_normalizer_rejects_decoded_metadata :
    result_to_document (fun _ => .error ())
      [(FIELDS_CONTENT, .str "c"), (FIELDS_METADATA, .obj [("a", .str "b")]),
       ("@search.score", .num 1), ("@search.reranker_score", .num 2)] =
      .ok (LCDocument.mk (.str "c") [("a", JVal.str "b")]) ∧
    semantic_hybrid_doc_of_row (fun _ => .error ()) []
      [(FIELDS_CONTENT, .str "c"), (FIELDS_METADATA, .obj [("a", .str "b")]),
       ("@search.score", .num 1), ("@search.reranker_score", .num 2)] =
      .error .typeError := by
  exact ⟨rfl, rfl⟩

/-- C5 (amended): for every raw result row whose `metadata` field already
holds a decoded structure (and whose content field is present), the
plain/hybrid normalizer `_result_to_document` skips re-decoding and uses
the structure as the metadata base without raising — independently of the
JSON parser; the semantic-hybrid normalizers instead `json.loads` the field
unconditionally and raise `TypeError` on such a row. -/
theorem azure_metadata_dict_tolerated_in_plain_normalizer
    (jsonParse : String → Except Unit JVal) (sad : PyDict) (row : PyDict)
    (m : PyDict) (c : JVal)
    (hm : dictGet? row FIELDS_METADATA = some (.obj m))
    (hc : dictGet? row FIELDS_CONTENT = some c) :
    result_to_document jsonParse row =
      .ok (LCDocument.mk c (dictUpdate
        (match dictGet? row FIELDS_ID with
         | some v => [(FIELDS_ID, v)]
         | none => []) m)) ∧
    semantic_hybrid_doc_of_row jsonParse sad row = .error .typeError := by
  constructor
  · have hsnd := dictGet?_dictPop_snd_ne row FIELDS_ID FIELDS_CONTENT
      (by decide)
    simp only [result_to_document, hm, hsnd, hc, dictPop_fst]
  · rcases hp1 : dictPop row FIELDS_CONTENT with ⟨cv, row1⟩
    have hcv : cv = some c := by rw [← hc, ← dictPop_fst, hp1]
    subst hcv
    rcases hp2 : dictPop row1 FIELDS_ID with ⟨idv, row2⟩
    have hm2 : dictGet? row2 FIELDS_METADATA = some (.obj m) := by
      have e2 : row2 = (dictPop row1 FIELDS_ID).2 := by rw [hp2]
      have e1 : row1 = (dictPop row FIELDS_CONTENT).2 := by rw [hp1]
      rw [e2, dictGet?_dictPop_snd_ne _ _ _ (by decide), e1,
          dictGet?_dictPop_snd_ne _ _ _ (by decide), hm]
    simp only [semantic_hybrid_doc_of_row, hp1, hp2, hm2]

/-- Witness for `azure_metadata_dict_tolerated_in_plain_normalizer` at a
concrete row carrying id, content and an already-decoded metadata dict. -/
theorem azure_metadata_dict_tolerated_witness :
    result_to_document (fun _ => .error ())
      [(FIELDS_ID, .str "i"), (FIELDS_CONTENT, .str "c"),
       (FIELDS_METADATA, .obj [("a", .str "b")])] =
      .ok (LCDocument.mk (.str "c")
        [(FIELDS_ID, JVal.str "i"), ("a", JVal.str "b")]) ∧
    semantic_hybrid_doc_of_row (fun _ => .error ()) []
      [(FIELDS_ID, .str "i"), (FIELDS_CONTENT, .str "c"),
       (FIELDS_METADATA, .obj [("a", .str "b")])] = .error .typeError := by
  have h := azure_metadata_dict_tolerated_in_plain_normalizer
    (fun _ => .error ()) []
    [(FIELDS_ID, .str "i"), (FIELDS_CONTENT, .str "c"),
     (FIELDS_METADATA, .obj [("a", .str "b")])]
    [("a", .str "b")] (.str "c") rfl rfl
  exact ⟨h.1, h.2⟩

/-- Witness for `diskann_default_l_search_is_40` at a concrete query. -/
theorem diskann_default_l_search_is_40_witness :
    l_search_default = 40 ∧
    (∃ params,
      searchStageParams
          (get_pipeline_vector_diskann_call "vectorContent" [1] 4 none none
            (some 1)) =
        some params ∧
      dictGet? params "lSearch" = some (.num 40)) ∧
    (∃ params,
      searchStageParams
          (similarity_pipeline "vectorContent" [1] 4 .vector_diskann none 40
            l_search_default) =
        some params ∧
      dictGet? params "lSearch" = some (.num 40)) :=
  diskann_default_l_search_is_40 "vectorContent" [1] 4 40 none (some 1)

/-- Witness for `mongo_pipeline_two_stages` at a concrete HNSW query with a
non-empty pre-filter. -/
theorem mongo_pipeline_two_stages_witness :
    (similarity_pipeline "vectorContent" [1] 4 .vector_hnsw
        (some [("a", .str "b")]) 7 9).length = 2 ∧
    (similarity_pipeline "vectorContent" [1] 4 .vector_hnsw
        (some [("a", .str "b")]) 7 9).get? 1 =
      some [("$project", .obj
        [("similarityScore", .obj [("$meta", .str "searchScore")]),
         ("document", .str "$$ROOT")])] ∧
    ∃ params,
      searchStageParams (similarity_pipeline "vectorContent" [1] 4
          .vector_hnsw (some [("a", .str "b")]) 7 9) = some params ∧
      dictGet? params "vector" = some (.arr ([1].map .num)) ∧
      dictGet? params "path" = some (.str "vectorContent") ∧
      dictGet? params "k" = some (.num 4) ∧
      (CosmosDBVectorSearchType.vector_hnsw = .vector_hnsw →
        dictGet? params "efSearch" = some (.num 7)) ∧
      (CosmosDBVectorSearchType.vector_hnsw = .vector_diskann →
        dictGet? params "lSearch" = some (.num 9)) ∧
      dictGet? params "filter" = filterEntry (some [("a", .str "b")]) :=
  mongo_pipeline_two_stages "vectorContent" [1] 4 7 9 .vector_hnsw
    (some [("a", .str "b")])
